/-
Verification of the gomon site-monitoring library (package gomon, gomon.go)
against its natural-language specification.

Shallow embedding conventions:
  * Go `time.Time` and `time.Duration` are modelled by their int64
    nanosecond representations (`GoTime`, and plain `Int` for durations).
  * Go fallible functions returning `(T, error)` where the repository code
    itself produces the pair are modelled as `Option T × Option String`
    (mirroring the two nullable returns); external library calls consumed
    by the repository are modelled as `Except String T` inputs supplied by
    an environment record.
  * The external world of `Check` (request construction, the HTTP
    round-trip, body reading, the system trust store, chain verification,
    and the wall clock) is passed in as explicit environment values, so
    `Check` and `certInfo` become pure functions of monitor, environment
    and clock.
-/
import Mathlib

namespace Gomon

/-- Go `time.Time`, reduced to its absolute nanosecond reading.
`t.Before u` is `t.ns < u.ns`, `t.After u` is `u.ns < t.ns`. -/
structure GoTime where
  ns : Int
deriving Repr, DecidableEq

/-- Modelled from the spec: stand-in for Go `time.Time.String()` as used by
`fmt.Sprintf("%s", t)` in the certificate error messages.  The exact
rendering of the standard library is not repository code; what matters for
the claims is that the message carries the timestamp, so we render the
nanosecond reading. -/
def timeString (t : GoTime) : String :=
  toString t.ns

/-- Stand-in for Go `fmt.Sprintf("%q", s)`: the string in double quotes
(escaping of interior characters is not needed by any claim). -/
def quoteStr (s : String) : String :=
  "\"" ++ s ++ "\""

/-- Modelled from Go `net/url.URL`: the fields of a parsed URL that
`sanitizeURL` and `Check` touch. -/
structure GoURL where
  scheme : String
  host : String
  path : String
  rawQuery : String
deriving Repr, DecidableEq

/-- Modelled from Go `net/url.URL.String()` for the URL shapes this
repository handles: `scheme://host path [?query]`; a URL with no scheme
re-serializes without the `://` separator. -/
def GoURL.toString (u : GoURL) : String :=
  (if u.scheme = "" then "" else u.scheme ++ "://") ++ u.host ++ u.path ++
    (if u.rawQuery = "" then "" else "?" ++ u.rawQuery)

/-- Split a character list at the first occurrence of `://`, returning the
text before it and the text after it, or `none` when it does not occur. -/
def splitSchemeSep : List Char → Option (List Char × List Char)
  | [] => none
  | ':' :: '/' :: '/' :: rest => some ([], rest)
  | c :: rest =>
    match splitSchemeSep rest with
    | none => none
    | some (pre, post) => some (c :: pre, post)

/-- Modelled from Go `net/url.Parse` for the inputs this repository meets:
strings with an ASCII control character fail to parse; a string without
`://` parses as a path-only URL (no scheme, no host); an empty scheme in
front of `://` fails (Go: missing protocol scheme); otherwise the text up
to the first `/` or `?` after `://` is the host, then the path, then the
query after `?`. -/
def urlParse (rawURL : String) : Option GoURL :=
  if rawURL.data.any (fun c => c.toNat < 32) then none else
  match splitSchemeSep rawURL.data with
  | none => some (GoURL.mk "" "" rawURL "")
  | some (schemeChars, rest) =>
    if schemeChars = [] then none else
    let hostChars := rest.takeWhile (fun c => c != '/' && c != '?')
    let afterHost := rest.dropWhile (fun c => c != '/' && c != '?')
    let pathChars := afterHost.takeWhile (fun c => c != '?')
    let queryChars := afterHost.dropWhile (fun c => c != '?')
    let rawQuery :=
      match queryChars with
      | [] => ""
      | _ :: qs => String.mk qs
    some (GoURL.mk (String.mk schemeChars) (String.mk hostChars)
      (String.mk pathChars) rawQuery)

/-- Go `x509.Certificate`, reduced to the fields `certInfo` reads. -/
structure Certificate where
  subject : String
  issuer : String
  notBefore : GoTime
  notAfter : GoTime
  dnsNames : List String
deriving Repr, DecidableEq

/-- Go `x509.CertPool`, reduced to the certificates it holds. -/
structure CertPool where
  certs : List Certificate
deriving Repr, DecidableEq

/-- Go `x509.VerifyOptions` as built by `certInfo`. -/
structure VerifyOpts where
  dnsName : String
  roots : CertPool
  intermediates : List Certificate

/-- Go `tls.ConnectionState`, reduced to the peer certificate chain. -/
structure TLSConnectionState where
  peerCertificates : List Certificate
deriving Repr, DecidableEq

/-- `Config` of gomon.go: the configuration to monitor a site.
`RequestTimeout` is a `time.Duration` in nanoseconds. -/
structure Config where
  URL : String
  Method : String
  RequestTimeout : Int
  IgnoreCert : Bool
  DontFollowRedirect : Bool
  UpStatusCodes : List Int
  Headers : List (String × List String)

/-- The parts of Go `http.Client` that `NewMonitor` configures: the overall
timeout, the transport TLS setting, and whether the `noRedirect` policy was
installed as `CheckRedirect`. -/
structure HTTPClient where
  timeout : Int
  insecureSkipVerify : Bool
  noRedirectPolicy : Bool

/-- `Monitor` of gomon.go: a client used to monitor a site. -/
structure Monitor where
  client : HTTPClient
  config : Config

/-- `CertInfo` of gomon.go: certificate details for HTTPS checks. -/
structure CertInfo where
  Subject : String
  Issuer : String
  ValidFrom : GoTime
  ValidTo : GoTime
  DNSNames : List String
  IsValid : Bool
  ErrorMsg : String
deriving Repr, DecidableEq

/-- `CheckResult` of gomon.go: the results of a site check. -/
structure CheckResult where
  URL : String
  StatusCode : Int
  Start : GoTime
  End : GoTime
  CertInfo : Option CertInfo

/-- `sanitizeURL` of gomon.go: validates and returns a sanitized URL
string.  A Go `(string, error)` return with a non-nil error is the
`.error` case. -/
def sanitizeURL (rawURL : String) : Except String String :=
  match urlParse rawURL with
  | none => Except.error "parse error"
  | some parsedURL =>
    if parsedURL.scheme = "" then
      Except.error ("missing scheme " ++ quoteStr rawURL)
    else if parsedURL.host = "" then
      Except.error ("missing host " ++ quoteStr rawURL)
    else
      Except.ok parsedURL.toString

/-- `NewMonitor` of gomon.go: creates and configures a new site monitor.
Returns the Go pair `(*Monitor, error)` as `Option Monitor × Option
String`. -/
def NewMonitor (config : Config) : Option Monitor × Option String :=
  let config1 :=
    if config.RequestTimeout = 0 then
      { config with RequestTimeout := 10 * 1000000000 }
    else config
  let config2 :=
    if config1.UpStatusCodes = [] then
      { config1 with UpStatusCodes := [200, 201] }
    else config1
  if config2.Method = "" then
    (none, some "missing HTTP method")
  else if config2.RequestTimeout < 0 then
    (none, some "negative timeout")
  else
    match sanitizeURL config2.URL with
    | Except.error e => (none, some ("invalid URL: " ++ e))
    | Except.ok validURL =>
      let client : HTTPClient :=
        { timeout := config2.RequestTimeout
          insecureSkipVerify := config2.IgnoreCert
          noRedirectPolicy := config2.DontFollowRedirect }
      (some { client := client, config := { config2 with URL := validURL } },
       none)

/-- The loop body of `isSuccessStatus`: scan `UpStatusCodes` for `code`. -/
def containsCode : List Int → Int → Bool
  | [], _ => false
  | validCode :: rest, code =>
    if code = validCode then true else containsCode rest code

/-- `isSuccessStatus` of gomon.go: whether a status code is acceptable
based on the monitor configuration. -/
def Monitor.isSuccessStatus (m : Monitor) (code : Int) : Bool :=
  if m.config.UpStatusCodes = [] then
    decide (200 ≤ code ∧ code < 300)
  else
    containsCode m.config.UpStatusCodes code

/-- An HTTP request as the repository manipulates it: its URL and its
header map (`req.Header.Set` replaces any previous value of the key). -/
structure Request where
  url : GoURL
  headers : List (String × String)
deriving Repr, DecidableEq

/-- Go `http.Header.Set`: replace the value associated with the key (the
keys this repository sets are already in canonical form). -/
def headerSet (hs : List (String × String)) (k v : String) :
    List (String × String) :=
  (k, v) :: hs.filter (fun p => !(p.1 = k))

/-- Look up a header value by key. -/
def headerGet (hs : List (String × String)) (k : String) : Option String :=
  (hs.find? (fun p => p.1 = k)).map (fun p => p.2)

/-- The parts of a Go `http.Response` that `Check` reads: the status code,
the TLS connection state (`nil` when the connection was plain HTTP), and
`resp.Request.URL.Hostname()` (the hostname of the final request after any
redirects). -/
structure HTTPResponse where
  statusCode : Int
  tls : Option TLSConnectionState
  requestHostname : String

/-- The external environment of `certInfo`: the wall clock reading
(`time.Now()`), the outcome of `x509.SystemCertPool()`, and the outcome of
`cert.Verify(opts)` (`some e` is a non-nil verification error). -/
structure CertEnv where
  now : GoTime
  systemRoots : Except String CertPool
  verifyErr : Certificate → VerifyOpts → Option String

/-- The `&CertInfo{...}` literal of `certInfo`: descriptive metadata from
the leaf certificate, initially valid with no error message. -/
def baseCertInfo (cert : Certificate) : CertInfo :=
  { Subject := cert.subject
    Issuer := cert.issuer
    ValidFrom := cert.notBefore
    ValidTo := cert.notAfter
    DNSNames := cert.dnsNames
    IsValid := true
    ErrorMsg := "" }

/-- The chain-verification tail of `certInfo` (from `x509.SystemCertPool()`
on): load the system roots, collect every certificate after the leaf as an
intermediate, and verify the leaf for the host. -/
def chainVerify (cenv : CertEnv) (cert : Certificate)
    (intermediates : List Certificate) (host : String) : CertInfo :=
  match cenv.systemRoots with
  | Except.error e =>
    { baseCertInfo cert with
      IsValid := false
      ErrorMsg := "error loading system root certificates: " ++ e }
  | Except.ok roots =>
    match cenv.verifyErr cert
        { dnsName := host, roots := roots, intermediates := intermediates } with
    | some e =>
      { baseCertInfo cert with
        IsValid := false
        ErrorMsg := "hostname verification failed: " ++ e }
    | none => baseCertInfo cert

/-- The body of `certInfo` once the leaf certificate is in hand: the date
checks in source order (`now.Before(NotBefore)` first, each returning
early), then the chain-verification tail. -/
def certInfoCore (cenv : CertEnv) (cert : Certificate)
    (intermediates : List Certificate) (host : String) : CertInfo :=
  if cenv.now.ns < cert.notBefore.ns then
    { baseCertInfo cert with
      IsValid := false
      ErrorMsg := "certificate not yet valid: " ++ timeString cert.notBefore }
  else if cert.notAfter.ns < cenv.now.ns then
    { baseCertInfo cert with
      IsValid := false
      ErrorMsg := "certificate has expired: " ++ timeString cert.notAfter }
  else
    chainVerify cenv cert intermediates host

/-- `certInfo` of gomon.go: extracts certificate details and verifies the
validity.  The Go code indexes `tlsState.PeerCertificates[0]` with no
guard; the `none` result models the index-out-of-range panic on an empty
chain. -/
def certInfo (cenv : CertEnv) (tlsState : TLSConnectionState)
    (host : String) : Option CertInfo :=
  match tlsState.peerCertificates with
  | [] => none
  | cert :: rest => some (certInfoCore cenv cert rest host)

/-- A monotone wall clock: `Check` samples it in program order (reading 0
for the cache-busting timestamp, 1 for `result.Start`, 2 for
`result.End`). -/
structure Clock where
  readings : Nat → Int
  mono : ∀ i j : Nat, i ≤ j → readings i ≤ readings j

/-- The external environment of one `Check` invocation: the outcome of
`http.NewRequestWithContext` for the configured method and URL, the
outcome of `m.client.Do` on the final request, and the body-read error of
`io.Copy(io.Discard, resp.Body)` if any, plus the certificate-inspection
environment. -/
structure CheckEnv where
  newRequest : String → String → Except String Request
  doRequest : Request → Except String HTTPResponse
  readBodyErr : HTTPResponse → Option String
  certEnv : CertEnv

/-- Lines 141-145 of `Check`: set the three anti-cache headers and assign
`req.URL.RawQuery = fmt.Sprintf("nocache=%d", time.Now().UnixNano())`. -/
def addCacheBusting (req : Request) (nowNano : Int) : Request :=
  { req with
    headers :=
      headerSet
        (headerSet
          (headerSet req.headers "Cache-Control"
            "no-cache, no-store, must-revalidate")
          "Pragma" "no-cache")
        "Expires" "0"
    url := { req.url with rawQuery := "nocache=" ++ toString nowNano } }

/-- `Check` of gomon.go: executes an HTTP request to the configured URL
and returns the result.  Returns the Go pair `(*CheckResult, error)` as
`Option CheckResult × Option String`. -/
def Monitor.Check (m : Monitor) (env : CheckEnv) (clock : Clock) :
    Option CheckResult × Option String :=
  match env.newRequest m.config.Method m.config.URL with
  | Except.error e =>
    (none,
     some ("failed to create request for " ++ quoteStr m.config.URL ++
       ": " ++ e))
  | Except.ok req0 =>
    let req := addCacheBusting req0 (clock.readings 0)
    let startTime : GoTime := GoTime.mk (clock.readings 1)
    let doResult := env.doRequest req
    let endTime : GoTime := GoTime.mk (clock.readings 2)
    match doResult with
    | Except.error e =>
      (none,
       some ("failed to send request for " ++ quoteStr m.config.URL ++
         ": " ++ e))
    | Except.ok resp =>
      match env.readBodyErr resp with
      | some e =>
        (none,
         some ("failed to read response body for " ++ quoteStr m.config.URL ++
           ": " ++ e))
      | none =>
        let certI : Option CertInfo :=
          match resp.tls with
          | some tlsState =>
            if 0 < tlsState.peerCertificates.length then
              certInfo env.certEnv tlsState resp.requestHostname
            else none
          | none => none
        (some { URL := m.config.URL
                StatusCode := resp.statusCode
                Start := startTime
                End := endTime
                CertInfo := certI },
         none)

/-! ### Concrete fixtures

Concrete configurations, certificates and environments used to evaluate
the definitions at explicit inputs. -/

/-- A valid configuration with an explicit accepted-status set. -/
def sampleConfig : Config :=
  { URL := "https://example.com"
    Method := "GET"
    RequestTimeout := 5000000000
    IgnoreCert := false
    DontFollowRedirect := false
    UpStatusCodes := [200]
    Headers := [] }

/-- A valid configuration whose accepted-status set is empty. -/
def cfgEmptyCodes : Config :=
  { sampleConfig with UpStatusCodes := [] }

/-- A valid configuration whose timeout is exactly zero. -/
def cfgZeroTimeout : Config :=
  { sampleConfig with RequestTimeout := 0 }

/-- The monitor `NewMonitor sampleConfig` produces. -/
def monitor200 : Monitor :=
  { client :=
      { timeout := 5000000000
        insecureSkipVerify := false
        noRedirectPolicy := false }
    config := sampleConfig }

/-- The monitor `NewMonitor cfgEmptyCodes` produces: the empty accepted
set has been replaced by the default. -/
def monitorDefaultCodes : Monitor :=
  { client :=
      { timeout := 5000000000
        insecureSkipVerify := false
        noRedirectPolicy := false }
    config := { sampleConfig with UpStatusCodes := [200, 201] } }

/-- A request whose URL already carries a query parameter. -/
def reqWithQuery : Request :=
  { url := { scheme := "https", host := "example.com", path := "/p", rawQuery := "a=1" }
    headers := [] }

/-- The request `http.NewRequestWithContext` builds for `sampleConfig`. -/
def sampleReq : Request :=
  { url := { scheme := "https", host := "example.com", path := "", rawQuery := "" }
    headers := [] }

/-- A leaf certificate valid from time 100 to time 200. -/
def sampleCert : Certificate :=
  { subject := "CN=example.com"
    issuer := "CN=TestCA"
    notBefore := GoTime.mk 100
    notAfter := GoTime.mk 200
    dnsNames := ["example.com"] }

/-- A TLS connection state presenting exactly the sample certificate. -/
def sampleTLS : TLSConnectionState :=
  { peerCertificates := [sampleCert] }

/-- A certificate environment whose clock reads 150 (inside the sample
validity window), whose trust store loads, and whose verification
succeeds. -/
def sampleCertEnv : CertEnv :=
  { now := GoTime.mk 150
    systemRoots := Except.ok (CertPool.mk [])
    verifyErr := fun _ _ => none }

/-- A certificate environment whose clock reads 50, before the sample
validity window opens. -/
def earlyCertEnv : CertEnv :=
  { sampleCertEnv with now := GoTime.mk 50 }

/-- A successful TLS response carrying the sample certificate chain. -/
def sampleResp : HTTPResponse :=
  { statusCode := 200
    tls := some sampleTLS
    requestHostname := "example.com" }

/-- An environment in which every stage of a check succeeds. -/
def okEnv : CheckEnv :=
  { newRequest := fun _ _ => Except.ok sampleReq
    doRequest := fun _ => Except.ok sampleResp
    readBodyErr := fun _ => none
    certEnv := sampleCertEnv }

/-- An environment in which the HTTP round-trip fails. -/
def errEnv : CheckEnv :=
  { okEnv with doRequest := fun _ => Except.error "connection refused" }

/-- An environment in which the round-trip succeeds but reading the body
fails. -/
def badBodyEnv : CheckEnv :=
  { okEnv with readBodyErr := fun _ => some "unexpected EOF" }

/-- The wall clock whose i-th reading is i. -/
def idClock : Clock :=
  { readings := fun i => (i : Int)
    mono := fun i j h => by simpa using Int.ofNat_le.mpr h }

/-- The check result `monitor200.Check okEnv idClock` produces. -/
def okResult : CheckResult :=
  { URL := "https://example.com"
    StatusCode := 200
    Start := GoTime.mk 1
    End := GoTime.mk 2
    CertInfo := some (baseCertInfo sampleCert) }

/-! ### Shared lemmas -/

/-- A string with a non-empty prefix is non-empty. -/
theorem append_ne_empty_left (p s : String) (hp : p ≠ "") : p ++ s ≠ "" := by
  intro h
  apply hp
  have hl := congrArg String.length h
  rw [String.length_append] at hl
  simp only [String.length_empty] at hl
  have hp0 : p.length = 0 := by omega
  cases p with
  | _ data =>
    cases data with
    | nil => rfl
    | cons c cs => simp [String.length] at hp0

/-- Shape of the monitor produced by a successful `NewMonitor` call: the
stored URL is the sanitized one, the method is unchanged, and the
accepted-status set and client timeout carry their defaulting. -/
theorem newMonitor_success_shape (cfg : Config) (m : Monitor)
    (h : (NewMonitor cfg).1 = some m) :
    sanitizeURL cfg.URL = Except.ok m.config.URL ∧
    m.config.Method = cfg.Method ∧
    m.config.UpStatusCodes =
      (if cfg.UpStatusCodes = [] then [200, 201] else cfg.UpStatusCodes) ∧
    m.client.timeout =
      (if cfg.RequestTimeout = 0 then 10 * 1000000000 else cfg.RequestTimeout) := by
  rcases Decidable.em (cfg.RequestTimeout = 0) with h0 | h0 <;>
  rcases Decidable.em (cfg.UpStatusCodes = []) with hU | hU <;>
  rcases Decidable.em (cfg.Method = "") with hM | hM <;>
  rcases Decidable.em (cfg.RequestTimeout < 0) with hN | hN <;>
  rcases hS : sanitizeURL cfg.URL with e | validURL <;>
  simp_all [NewMonitor] <;>
  subst h <;>
  simp_all

/-- A non-empty peer chain makes `certInfo` return a value (the empty-chain
branch models the Go index panic). -/
theorem certInfo_isSome_of_pos (cenv : CertEnv) (tlsState : TLSConnectionState)
    (host : String) (h : 0 < tlsState.peerCertificates.length) :
    (certInfo cenv tlsState host).isSome = true := by
  rcases hC : tlsState.peerCertificates with _ | ⟨c, rest⟩
  · rw [hC] at h; simp at h
  · simp [certInfo, hC]

/-! ### C1: cache busting -/

/-- C1 (counterexample): the claim says the nanosecond query parameter is
appended to the existing query string with existing parameters preserved;
on a request whose URL carries `a=1`, the code instead produces exactly
`nocache=42`, not `a=1&nocache=42`. -/
theorem check_query_replaced_counterexample :
    (addCacheBusting reqWithQuery 42).url.rawQuery = "nocache=42" ∧
    (addCacheBusting reqWithQuery 42).url.rawQuery ≠ "a=1&nocache=42" := by
  exact ⟨rfl, by decide⟩

/-- C1 (amended): every invocation of `Check` sets the three fixed
anti-cache headers and replaces the query string of the request URL with
the single nanosecond-timestamp parameter, discarding any query parameters
already present; scheme, host and path are preserved. -/
theorem addCacheBusting_spec (req : Request) (nowNano : Int) :
    (addCacheBusting req nowNano).url.rawQuery = "nocache=" ++ toString nowNano ∧
    (addCacheBusting req nowNano).url.scheme = req.url.scheme ∧
    (addCacheBusting req nowNano).url.host = req.url.host ∧
    (addCacheBusting req nowNano).url.path = req.url.path ∧
    headerGet (addCacheBusting req nowNano).headers "Cache-Control" =
      some "no-cache, no-store, must-revalidate" ∧
    headerGet (addCacheBusting req nowNano).headers "Pragma" = some "no-cache" ∧
    headerGet (addCacheBusting req nowNano).headers "Expires" = some "0" :=
  ⟨rfl, rfl, rfl, rfl, rfl, rfl, rfl⟩

/-! ### C2: status-code classification -/

/-- C2 (counterexample): the claim says a checker built by `NewMonitor`
from an empty accepted-status set classifies by the default range
[200,300); the built checker classifies 204 as down although 204 lies in
that range. -/
theorem default_status_range_counterexample :
    (NewMonitor cfgEmptyCodes).1.map (fun m => m.isSuccessStatus 204) =
      some false ∧
    ((200 : Int) ≤ 204 ∧ (204 : Int) < 300) := by
  exact ⟨rfl, by decide⟩

/-- C2 (amended): with accepted set {200} a code is up iff it is 200; a
checker built by `NewMonitor` from an empty accepted set receives the
default set {200, 201}, so a code is up iff it is 200 or 201 (the
[200,300)-range fallback inside `isSuccessStatus` is unreachable through
`NewMonitor`). -/
theorem isSuccessStatus_spec :
    (∀ (m : Monitor) (code : Int), m.config.UpStatusCodes = [200] →
      (m.isSuccessStatus code = true ↔ code = 200)) ∧
    (∀ (cfg : Config) (m : Monitor) (code : Int),
      cfg.UpStatusCodes = [] → (NewMonitor cfg).1 = some m →
      (m.isSuccessStatus code = true ↔ (code = 200 ∨ code = 201))) := by
  constructor
  · intro m code h
    simp [Monitor.isSuccessStatus, h, containsCode]
  · intro cfg m code hU hm
    have hcodes : m.config.UpStatusCodes = [200, 201] := by
      rw [(newMonitor_success_shape cfg m hm).2.2.1, if_pos hU]
    simp [Monitor.isSuccessStatus, hcodes, containsCode]

/-- C2 witness: concrete classifications through the amended theorem. -/
theorem isSuccessStatus_spec_witness :
    monitor200.isSuccessStatus 200 = true ∧
    monitor200.isSuccessStatus 404 = false ∧
    monitorDefaultCodes.isSuccessStatus 201 = true := by
  refine ⟨?_, ?_, ?_⟩
  · exact (isSuccessStatus_spec.1 monitor200 200 rfl).2 rfl
  · have h := isSuccessStatus_spec.1 monitor200 404 rfl
    revert h; decide
  · exact (isSuccessStatus_spec.2 cfgEmptyCodes monitorDefaultCodes 201 rfl
      rfl).2 (Or.inr rfl)

/-! ### C3: construction validation -/

/-- C3: `NewMonitor` reports an error exactly when the method is empty,
the timeout is negative, or the URL fails sanitation; an error means no
monitor is returned and vice versa (construction is atomic); a timeout of
exactly zero is replaced by the 10-second default and construction
succeeds given otherwise-valid fields. -/
theorem newMonitor_validation_spec :
    (∀ cfg : Config,
      ((NewMonitor cfg).2 ≠ none ↔
        (cfg.Method = "" ∨ cfg.RequestTimeout < 0 ∨
          ∃ e, sanitizeURL cfg.URL = Except.error e))) ∧
    (∀ cfg : Config,
      ((NewMonitor cfg).1 = none ↔ (NewMonitor cfg).2 ≠ none)) ∧
    (∀ cfg : Config, cfg.RequestTimeout = 0 → cfg.Method ≠ "" →
      (∀ e, sanitizeURL cfg.URL ≠ Except.error e) →
      ∃ m, NewMonitor cfg = (some m, none) ∧
        m.client.timeout = 10 * 1000000000) := by
  refine ⟨?_, ?_, ?_⟩ <;>
  intro cfg <;>
  rcases Decidable.em (cfg.RequestTimeout = 0) with h0 | h0 <;>
  rcases Decidable.em (cfg.UpStatusCodes = []) with hU | hU <;>
  rcases Decidable.em (cfg.Method = "") with hM | hM <;>
  rcases Decidable.em (cfg.RequestTimeout < 0) with hN | hN <;>
  rcases hS : sanitizeURL cfg.URL with e | validURL <;>
  simp_all [NewMonitor] <;>
  first
    | omega
    | (rw [if_neg (show ¬cfg.RequestTimeout < 0 by omega)]; simp_all)

/-- C3 witness: an empty method is rejected; a zero timeout yields a
monitor whose client timeout is 10 seconds. -/
theorem newMonitor_validation_spec_witness :
    ((NewMonitor { sampleConfig with Method := "" }).2 ≠ none) ∧
    (∃ m, NewMonitor cfgZeroTimeout = (some m, none) ∧
      m.client.timeout = 10 * 1000000000) := by
  have hok : sanitizeURL cfgZeroTimeout.URL =
      Except.ok "https://example.com" := rfl
  constructor
  · exact (newMonitor_validation_spec.1 { sampleConfig with Method := "" }).2
      (Or.inl rfl)
  · exact newMonitor_validation_spec.2.2 cfgZeroTimeout rfl (by decide)
      (fun e h => by rw [hok] at h; simp at h)

/-! ### C8: URL sanitation -/

/-- C8: `sanitizeURL` fails exactly when parsing fails or the parsed
scheme or host is empty; on success it returns the re-serialization of the
parsed URL, and a successfully constructed monitor stores exactly that
sanitized URL in place of the input. -/
theorem sanitizeURL_spec :
    (∀ raw : String,
      ((∃ e, sanitizeURL raw = Except.error e) ↔
        (urlParse raw = none ∨
          ∃ u, urlParse raw = some u ∧ (u.scheme = "" ∨ u.host = "")))) ∧
    (∀ (raw : String) (u : GoURL), urlParse raw = some u →
      u.scheme ≠ "" → u.host ≠ "" →
      sanitizeURL raw = Except.ok u.toString) ∧
    (∀ (cfg : Config) (m : Monitor), (NewMonitor cfg).1 = some m →
      sanitizeURL cfg.URL = Except.ok m.config.URL) := by
  refine ⟨?_, ?_, ?_⟩
  · intro raw
    rcases hP : urlParse raw with _ | u
    · simp [sanitizeURL, hP]
    · rcases Decidable.em (u.scheme = "") with hs | hs
      · simp [sanitizeURL, hP, hs]
      · rcases Decidable.em (u.host = "") with hh | hh <;>
        simp [sanitizeURL, hP, hs, hh]
  · intro raw u hP hs hh
    simp [sanitizeURL, hP, hs, hh]
  · intro cfg m hm
    exact (newMonitor_success_shape cfg m hm).1

/-- C8 witness: `https://example.com` parses, sanitizes to itself, and is
stored unchanged in the constructed monitor. -/
theorem sanitizeURL_spec_witness :
    sanitizeURL "https://example.com" = Except.ok "https://example.com" ∧
    sanitizeURL sampleConfig.URL = Except.ok monitor200.config.URL := by
  constructor
  · exact sanitizeURL_spec.2.1 "https://example.com"
      (GoURL.mk "https" "example.com" "" "") rfl (by decide) (by decide)
  · exact sanitizeURL_spec.2.2 sampleConfig monitor200 rfl

/-! ### C5: Check is all-or-nothing -/

/-- C5: every `Check` invocation returns either a result and no error or
an error and no result; on transport failure and on body-read failure the
error wraps the underlying cause and carries the target URL. -/
theorem check_all_or_nothing_spec :
    (∀ (m : Monitor) (env : CheckEnv) (clock : Clock),
      ((m.Check env clock).1.isSome ∧ (m.Check env clock).2 = none) ∨
      ((m.Check env clock).1 = none ∧ (m.Check env clock).2.isSome)) ∧
    (∀ (m : Monitor) (env : CheckEnv) (clock : Clock) (req0 : Request)
      (e : String),
      env.newRequest m.config.Method m.config.URL = Except.ok req0 →
      env.doRequest (addCacheBusting req0 (clock.readings 0)) =
        Except.error e →
      m.Check env clock =
        (none, some ("failed to send request for " ++ quoteStr m.config.URL ++
          ": " ++ e))) ∧
    (∀ (m : Monitor) (env : CheckEnv) (clock : Clock) (req0 : Request)
      (resp : HTTPResponse) (e : String),
      env.newRequest m.config.Method m.config.URL = Except.ok req0 →
      env.doRequest (addCacheBusting req0 (clock.readings 0)) =
        Except.ok resp →
      env.readBodyErr resp = some e →
      m.Check env clock =
        (none,
         some ("failed to read response body for " ++ quoteStr m.config.URL ++
           ": " ++ e))) := by
  refine ⟨?_, ?_, ?_⟩
  · intro m env clock
    rcases hR : env.newRequest m.config.Method m.config.URL with e | req0
    · right; simp [Monitor.Check, hR]
    · rcases hD : env.doRequest (addCacheBusting req0 (clock.readings 0)) with
        e | resp
      · right; simp [Monitor.Check, hR, hD]
      · rcases hB : env.readBodyErr resp with _ | e
        · left; simp [Monitor.Check, hR, hD, hB]
        · right; simp [Monitor.Check, hR, hD, hB]
  · intro m env clock req0 e hR hD
    simp [Monitor.Check, hR, hD]
  · intro m env clock req0 resp e hR hD hB
    simp [Monitor.Check, hR, hD, hB]

/-- C5 witness: a failing round-trip and a failing body read, each
yielding no result and an error naming the URL and the cause. -/
theorem check_all_or_nothing_spec_witness :
    monitor200.Check errEnv idClock =
      (none,
       some "failed to send request for \"https://example.com\": connection refused") ∧
    monitor200.Check badBodyEnv idClock =
      (none,
       some "failed to read response body for \"https://example.com\": unexpected EOF") := by
  constructor
  · exact check_all_or_nothing_spec.2.1 monitor200 errEnv idClock sampleReq
      "connection refused" rfl rfl
  · exact check_all_or_nothing_spec.2.2 monitor200 badBodyEnv idClock sampleReq
      sampleResp "unexpected EOF" rfl rfl rfl

/-! ### C7: certificate info presence -/

/-- C7: a successfully returned check result carries certificate info
exactly when the response had a TLS connection state presenting at least
one peer certificate. -/
theorem check_certInfo_presence_spec :
    ∀ (m : Monitor) (env : CheckEnv) (clock : Clock) (req0 : Request)
      (resp : HTTPResponse),
      env.newRequest m.config.Method m.config.URL = Except.ok req0 →
      env.doRequest (addCacheBusting req0 (clock.readings 0)) =
        Except.ok resp →
      env.readBodyErr resp = none →
      ∃ r, m.Check env clock = (some r, none) ∧
        (r.CertInfo.isSome = true ↔
          ∃ tlsState, resp.tls = some tlsState ∧
            0 < tlsState.peerCertificates.length) := by
  intro m env clock req0 resp hR hD hB
  refine ⟨{ URL := m.config.URL
            StatusCode := resp.statusCode
            Start := GoTime.mk (clock.readings 1)
            End := GoTime.mk (clock.readings 2)
            CertInfo :=
              match resp.tls with
              | some tlsState =>
                if 0 < tlsState.peerCertificates.length then
                  certInfo env.certEnv tlsState resp.requestHostname
                else none
              | none => none }, ?_, ?_⟩
  · simp [Monitor.Check, hR, hD, hB]
  rcases hT : resp.tls with _ | tlsState
  · simp [hT]
  · rcases Decidable.em (0 < tlsState.peerCertificates.length) with hl | hl
    · simp [hT, hl, certInfo_isSome_of_pos]
    · simp [hT, hl]

/-- C7 witness: a TLS response with one peer certificate yields a result
whose certificate info is present. -/
theorem check_certInfo_presence_spec_witness :
    ∃ r, monitor200.Check okEnv idClock = (some r, none) ∧
      r.CertInfo.isSome = true := by
  obtain ⟨r, hr, hiff⟩ := check_certInfo_presence_spec monitor200 okEnv idClock
    sampleReq sampleResp rfl rfl rfl
  exact ⟨r, hr, hiff.2 ⟨sampleTLS, rfl, by decide⟩⟩

/-! ### C9: start precedes end -/

/-- C9: every result successfully returned by `Check` has its start
timestamp no later than its end timestamp, because the two clock samples
are taken in program order around the request. -/
theorem check_start_le_end_spec :
    ∀ (m : Monitor) (env : CheckEnv) (clock : Clock) (r : CheckResult),
      (m.Check env clock).1 = some r → r.Start.ns ≤ r.End.ns := by
  intro m env clock r h
  rcases hR : env.newRequest m.config.Method m.config.URL with e | req0
  · simp [Monitor.Check, hR] at h
  · rcases hD : env.doRequest (addCacheBusting req0 (clock.readings 0)) with
      e | resp
    · simp [Monitor.Check, hR, hD] at h
    · rcases hB : env.readBodyErr resp with _ | e
      · simp [Monitor.Check, hR, hD, hB] at h
        rw [← h]
        exact clock.mono 1 2 (by omega)
      · simp [Monitor.Check, hR, hD, hB] at h

/-- C9 witness: the concrete successful check samples start 1 and end 2. -/
theorem check_start_le_end_spec_witness :
    okResult.Start.ns ≤ okResult.End.ns :=
  check_start_le_end_spec monitor200 okEnv idClock okResult (by rfl)

/-! ### C10: leaf indexing is in bounds -/

/-- C10: `certInfo` indexes the peer chain at position 0 with no guard;
under the non-empty-chain precondition that `Check` establishes before
every call, the out-of-bounds branch (modelled as `none`) is
unreachable. -/
theorem certInfo_index_safe_spec :
    ∀ (cenv : CertEnv) (tlsState : TLSConnectionState) (host : String),
      0 < tlsState.peerCertificates.length →
      certInfo cenv tlsState host ≠ none := by
  intro cenv tlsState host h hnone
  have hs := certInfo_isSome_of_pos cenv tlsState host h
  rw [hnone] at hs
  simp at hs

/-- C10 witness: the sample one-certificate chain is safely indexed. -/
theorem certInfo_index_safe_spec_witness :
    certInfo sampleCertEnv sampleTLS "example.com" ≠ none :=
  certInfo_index_safe_spec sampleCertEnv sampleTLS "example.com" (by decide)

/-! ### C6: certificate inspection is total -/

/-- C6: on any non-empty peer chain, `certInfo` returns a populated
structure whose descriptive fields come from the leaf certificate, and
validity and error message agree: the info is valid exactly when the error
message is empty. -/
theorem certInfo_total_spec :
    ∀ (cenv : CertEnv) (tlsState : TLSConnectionState) (host : String)
      (cert : Certificate) (rest : List Certificate),
      tlsState.peerCertificates = cert :: rest →
      ∃ ci, certInfo cenv tlsState host = some ci ∧
        ci.Subject = cert.subject ∧ ci.Issuer = cert.issuer ∧
        ci.ValidFrom = cert.notBefore ∧ ci.ValidTo = cert.notAfter ∧
        ci.DNSNames = cert.dnsNames ∧
        (ci.IsValid = true ↔ ci.ErrorMsg = "") ∧
        (ci.IsValid = false → ci.ErrorMsg ≠ "") := by
  intro cenv tlsState host cert rest hC
  refine ⟨certInfoCore cenv cert rest host, by simp [certInfo, hC], ?_⟩
  have hne1 := append_ne_empty_left "certificate not yet valid: "
    (timeString cert.notBefore) (by decide)
  have hne2 := append_ne_empty_left "certificate has expired: "
    (timeString cert.notAfter) (by decide)
  unfold certInfoCore
  rcases Decidable.em (cenv.now.ns < cert.notBefore.ns) with h1 | h1
  · simp [h1, baseCertInfo, hne1]
  · rcases Decidable.em (cert.notAfter.ns < cenv.now.ns) with h2 | h2
    · simp [h1, h2, baseCertInfo, hne2]
    · unfold chainVerify
      rcases hRoots : cenv.systemRoots with e | roots
      · have hne3 := append_ne_empty_left
          "error loading system root certificates: " e (by decide)
        simp [h1, h2, hRoots, baseCertInfo, hne3]
      · rcases hV : cenv.verifyErr cert
          { dnsName := host, roots := roots, intermediates := rest } with _ | e
        · simp [h1, h2, hRoots, hV, baseCertInfo]
        · have hne4 := append_ne_empty_left
            "hostname verification failed: " e (by decide)
          simp [h1, h2, hRoots, hV, baseCertInfo, hne4]

/-- C6 witness: the sample chain inside its validity window yields a
populated, valid certificate info with an empty message. -/
theorem certInfo_total_spec_witness :
    ∃ ci, certInfo sampleCertEnv sampleTLS "example.com" = some ci ∧
      ci.Subject = "CN=example.com" ∧
      (ci.IsValid = true ↔ ci.ErrorMsg = "") := by
  obtain ⟨ci, h1, h2, _, _, _, _, h7, _⟩ := certInfo_total_spec sampleCertEnv
    sampleTLS "example.com" sampleCert [] rfl
  exact ⟨ci, h1, h2, h7⟩

/-! ### C4: validation rule order -/

/-- C4: the certificate rules apply in the fixed order not-yet-valid,
expired, chain verification, first applicable rule winning: before the
window the result is the not-yet-valid record carrying the not-before
timestamp, independent of the verification environment; past the window it
is the expired record carrying the not-after timestamp; inside the window
the result is exactly the chain-verification outcome, valid precisely
when the trust store loads and verification reports no error. -/
theorem certInfo_rule_order_spec :
    ∀ (cenv : CertEnv) (cert : Certificate)
      (intermediates : List Certificate) (host : String),
      (cenv.now.ns < cert.notBefore.ns →
        certInfoCore cenv cert intermediates host =
          { baseCertInfo cert with
            IsValid := false
            ErrorMsg :=
              "certificate not yet valid: " ++ timeString cert.notBefore }) ∧
      (¬ cenv.now.ns < cert.notBefore.ns →
        cert.notAfter.ns < cenv.now.ns →
        certInfoCore cenv cert intermediates host =
          { baseCertInfo cert with
            IsValid := false
            ErrorMsg :=
              "certificate has expired: " ++ timeString cert.notAfter }) ∧
      (¬ cenv.now.ns < cert.notBefore.ns →
        ¬ cert.notAfter.ns < cenv.now.ns →
        (certInfoCore cenv cert intermediates host =
          chainVerify cenv cert intermediates host ∧
        ((certInfoCore cenv cert intermediates host).IsValid = true ↔
          ∃ roots, cenv.systemRoots = Except.ok roots ∧
            cenv.verifyErr cert
              { dnsName := host
                roots := roots
                intermediates := intermediates } = none))) := by
  intro cenv cert intermediates host
  refine ⟨?_, ?_, ?_⟩
  · intro h1
    simp [certInfoCore, h1]
  · intro h1 h2
    simp [certInfoCore, h1, h2]
  · intro h1 h2
    constructor
    · simp [certInfoCore, h1, h2]
    · rcases hRoots : cenv.systemRoots with e | roots
      · simp [certInfoCore, chainVerify, h1, h2, hRoots, baseCertInfo]
      · rcases hV : cenv.verifyErr cert
          { dnsName := host, roots := roots, intermediates := intermediates }
          with _ | e <;>
        simp [certInfoCore, chainVerify, h1, h2, hRoots, hV, baseCertInfo]

/-- C4 witness: before the sample validity window the not-yet-valid rule
wins and reports the not-before timestamp. -/
theorem certInfo_rule_order_spec_witness :
    certInfoCore earlyCertEnv sampleCert [] "example.com" =
      { baseCertInfo sampleCert with
        IsValid := false
        ErrorMsg := "certificate not yet valid: 100" } :=
  (certInfo_rule_order_spec earlyCertEnv sampleCert [] "example.com").1
    (by decide)

end Gomon
